import Mathlib

/-!
# Verification of the RTDS SCEPTRE provider (`pybennu/providers/power/solvers/rtds.py`)

A shallow embedding of the provider's data model and operations:

* Python dictionaries become insertion-ordered association lists
  (`dictGet`, `dictSet`, `dictUpdate`), matching CPython semantics where
  assignment to an existing key keeps its position and a new key is appended.
* `RTDS.__init__`'s GTNET-SKT setup becomes `RTDS.init`, building
  `gtnet_skt_state` (the ordered control point vector) and seeding
  `current_values` with it.
* `RTDS.write`, `RTDS.read`, `RTDS.query` and `RTDS._serialize_value`
  are translated directly; Python exceptions become `Option`/dedicated
  outcome constructors.
* `struct.pack("!...")` becomes `packPayload`: 4-byte big-endian fields,
  two's complement for `i`, IEEE-754 binary32 (round to nearest even,
  implemented on `Rat`) for `f`.
* The retry logic of `RTDS._poll_pmu` becomes the step function
  `poll_step` on the `retry_count` counter.
-/

/-! ## Python dictionaries as insertion-ordered association lists -/

/-- Keys of a dict, in insertion order. -/
def dictKeys {β : Type} (d : List (String × β)) : List String :=
  d.map Prod.fst

/-- `d[k]` as an `Option` (first entry with the key; keys are unique for
dicts built by `dictSet`). -/
def dictGet {β : Type} : List (String × β) → String → Option β
  | [], _ => none
  | (k1, v) :: rest, k => if k = k1 then some v else dictGet rest k

/-- The value replacement used by `dictSet` on an existing key. -/
def mapReplace {β : Type} (d : List (String × β)) (k : String) (v : β) :
    List (String × β) :=
  d.map (fun p => if p.1 = k then (k, v) else p)

/-- `d[k] = v` with CPython ordering semantics: an existing key keeps its
position, a new key is appended at the end. -/
def dictSet {β : Type} (d : List (String × β)) (k : String) (v : β) :
    List (String × β) :=
  if k ∈ dictKeys d then mapReplace d k v
  else d ++ [(k, v)]

/-- `d.update(l)`: apply `dictSet` for each pair of `l` in order. -/
def dictUpdate {β : Type} (d : List (String × β)) (l : List (String × β)) :
    List (String × β) :=
  l.foldl (fun acc kv => dictSet acc kv.1 kv.2) d

@[simp] theorem dictKeys_nil {β : Type} : dictKeys ([] : List (String × β)) = [] := rfl

@[simp] theorem dictKeys_cons {β : Type} (p : String × β) (d : List (String × β)) :
    dictKeys (p :: d) = p.1 :: dictKeys d := rfl

@[simp] theorem dictGet_nil {β : Type} (k : String) :
    dictGet ([] : List (String × β)) k = none := rfl

theorem dictGet_cons {β : Type} (k1 : String) (v : β) (d : List (String × β)) (k : String) :
    dictGet ((k1, v) :: d) k = if k = k1 then some v else dictGet d k := rfl

theorem dictGet_isSome_iff_mem {β : Type} (d : List (String × β)) (k : String) :
    (dictGet d k).isSome ↔ k ∈ dictKeys d := by
  induction d with
  | nil => simp
  | cons p rest ih =>
    obtain ⟨k1, v⟩ := p
    by_cases h : k = k1 <;> simp [dictGet_cons, h, ih]

theorem mem_dictKeys_of_dictGet {β : Type} {d : List (String × β)} {k : String} {v : β}
    (h : dictGet d k = some v) : k ∈ dictKeys d := by
  have : (dictGet d k).isSome := by rw [h]; rfl
  exact (dictGet_isSome_iff_mem d k).mp this

theorem dictSet_of_mem {β : Type} {d : List (String × β)} {k : String} (v : β)
    (h : k ∈ dictKeys d) : dictSet d k v = mapReplace d k v := by
  unfold dictSet; simp [h]

theorem dictSet_of_not_mem {β : Type} {d : List (String × β)} {k : String} (v : β)
    (h : k ∉ dictKeys d) : dictSet d k v = d ++ [(k, v)] := by
  unfold dictSet; simp [h]

theorem dictGet_append_left {β : Type} (d e : List (String × β)) (k : String)
    (h : k ∈ dictKeys d) : dictGet (d ++ e) k = dictGet d k := by
  induction d with
  | nil => simp at h
  | cons p rest ih =>
    obtain ⟨k1, v1⟩ := p
    by_cases hk : k = k1
    · simp [dictGet_cons, hk]
    · have hmem : k ∈ dictKeys rest := by
        rcases List.mem_cons.mp h with h1 | h2
        · exact absurd h1 hk
        · exact h2
      simp [dictGet_cons, hk, ih hmem]

theorem dictGet_append_right {β : Type} (d e : List (String × β)) (k : String)
    (h : k ∉ dictKeys d) : dictGet (d ++ e) k = dictGet e k := by
  induction d with
  | nil => simp
  | cons p rest ih =>
    obtain ⟨k1, v1⟩ := p
    have hk : k ≠ k1 := by
      intro hh; exact h (by simp [hh])
    have hmem : k ∉ dictKeys rest := by
      intro hh; exact h (by simp [hh])
    simp [dictGet_cons, hk, ih hmem]

theorem dictGet_mapReplace_self {β : Type} (d : List (String × β)) (k : String) (v : β)
    (h : k ∈ dictKeys d) : dictGet (mapReplace d k v) k = some v := by
  induction d with
  | nil => simp at h
  | cons p rest ih =>
    obtain ⟨k1, v1⟩ := p
    by_cases hk : k1 = k
    · subst hk
      simp [mapReplace, dictGet_cons]
    · have hmem : k ∈ dictKeys rest := by
        rcases List.mem_cons.mp h with h1 | h2
        · exact absurd h1.symm hk
        · exact h2
      have hk' : k ≠ k1 := fun hh => hk hh.symm
      simp only [mapReplace, List.map_cons] at ih ⊢
      simp [hk, dictGet_cons, hk', ih hmem]

theorem dictGet_mapReplace_ne {β : Type} (d : List (String × β)) (k k' : String) (v : β)
    (h : k' ≠ k) : dictGet (mapReplace d k v) k' = dictGet d k' := by
  induction d with
  | nil => simp [mapReplace]
  | cons p rest ih =>
    obtain ⟨k1, v1⟩ := p
    by_cases hk : k1 = k
    · subst hk
      simp only [mapReplace, List.map_cons] at ih ⊢
      simp [dictGet_cons, h, ih]
    · simp only [mapReplace, List.map_cons] at ih ⊢
      by_cases h2 : k' = k1
      · simp [hk, dictGet_cons, h2]
      · simp [hk, dictGet_cons, h2, ih]

theorem dictGet_dictSet_self {β : Type} (d : List (String × β)) (k : String) (v : β) :
    dictGet (dictSet d k v) k = some v := by
  by_cases hmem : k ∈ dictKeys d
  · rw [dictSet_of_mem v hmem]
    exact dictGet_mapReplace_self d k v hmem
  · rw [dictSet_of_not_mem v hmem, dictGet_append_right d _ k hmem]
    simp [dictGet_cons]

theorem dictGet_dictSet_ne {β : Type} (d : List (String × β)) (k k' : String) (v : β)
    (h : k' ≠ k) : dictGet (dictSet d k v) k' = dictGet d k' := by
  by_cases hmem : k ∈ dictKeys d
  · rw [dictSet_of_mem v hmem]
    exact dictGet_mapReplace_ne d k k' v h
  · rw [dictSet_of_not_mem v hmem]
    by_cases h' : k' ∈ dictKeys d
    · exact dictGet_append_left d _ k' h'
    · rw [dictGet_append_right d _ k' h']
      have : dictGet d k' = none := by
        cases hval : dictGet d k' with
        | none => rfl
        | some v' => exact absurd (mem_dictKeys_of_dictGet hval) h'
      simp [this, dictGet_cons, h]

theorem dictKeys_mapReplace {β : Type} (d : List (String × β)) (k : String) (v : β) :
    dictKeys (mapReplace d k v) = dictKeys d := by
  unfold dictKeys mapReplace
  rw [List.map_map]
  apply List.map_congr_left
  intro p hp
  by_cases hpk : p.1 = k <;> simp [Function.comp, hpk]

theorem dictKeys_dictSet_of_mem {β : Type} (d : List (String × β)) (k : String) (v : β)
    (h : k ∈ dictKeys d) : dictKeys (dictSet d k v) = dictKeys d := by
  rw [dictSet_of_mem v h]
  exact dictKeys_mapReplace d k v

/-- Two `dictSet`s on distinct keys, both already present, commute. -/
theorem dictSet_comm {β : Type} (d : List (String × β)) (k1 k2 : String) (v1 v2 : β)
    (hne : k1 ≠ k2) (h1 : k1 ∈ dictKeys d) (h2 : k2 ∈ dictKeys d) :
    dictSet (dictSet d k1 v1) k2 v2 = dictSet (dictSet d k2 v2) k1 v1 := by
  have h1' : k1 ∈ dictKeys (dictSet d k2 v2) := by
    rw [dictKeys_dictSet_of_mem d k2 v2 h2]; exact h1
  have h2' : k2 ∈ dictKeys (dictSet d k1 v1) := by
    rw [dictKeys_dictSet_of_mem d k1 v1 h1]; exact h2
  rw [dictSet_of_mem v1 h1, dictSet_of_mem v2 h2,
    dictSet_of_mem v2 (by rw [dictSet_of_mem v1 h1] at h2'; exact h2'),
    dictSet_of_mem v1 (by rw [dictSet_of_mem v2 h2] at h1'; exact h1')]
  unfold mapReplace
  rw [List.map_map, List.map_map]
  apply List.map_congr_left
  intro p _
  by_cases hp1 : p.1 = k1
  · simp [Function.comp, hp1, hne, Ne.symm hne]
  · by_cases hp2 : p.1 = k2 <;> simp [Function.comp, hp1, hp2, hne, Ne.symm hne]

/-- Folding `dictSet` over pairs whose keys are fresh and distinct appends them. -/
theorem dictUpdate_of_fresh {β : Type} (l : List (String × β)) :
    ∀ d : List (String × β), (∀ kv ∈ l, kv.1 ∉ dictKeys d) → (l.map Prod.fst).Nodup →
      dictUpdate d l = d ++ l := by
  induction l with
  | nil => intro d _ _; simp [dictUpdate]
  | cons kv rest ih =>
    intro d hfresh hnd
    obtain ⟨k, v⟩ := kv
    have hk : k ∉ dictKeys d := hfresh (k, v) (List.mem_cons_self _ _)
    simp only [List.map_cons, List.nodup_cons] at hnd
    have hrest : ∀ kv' ∈ rest, kv'.1 ∉ dictKeys (d ++ [(k, v)]) := by
      intro kv' hmem
      unfold dictKeys
      simp only [List.map_append, List.mem_append, List.map_cons, List.map_nil,
        List.mem_singleton]
      push_neg
      constructor
      · exact hfresh kv' (List.mem_cons_of_mem _ hmem)
      · intro hh
        exact hnd.1 (hh ▸ List.mem_map.mpr ⟨kv', hmem, rfl⟩)
    have hstep := ih (d ++ [(k, v)]) hrest hnd.2
    unfold dictUpdate at hstep ⊢
    simp only [List.foldl_cons]
    rw [dictSet_of_not_mem v hk, hstep, List.append_assoc]
    rfl

theorem dictUpdate_nil_of_nodup {β : Type} (l : List (String × β))
    (hnd : (l.map Prod.fst).Nodup) : dictUpdate [] l = l := by
  have := dictUpdate_of_fresh l [] (by intro kv _; simp) hnd
  simpa using this

/-- Lookup in a value-mapped dict. -/
theorem dictGet_map_value {β γ : Type} (f : β → γ) (d : List (String × β)) (k : String) :
    dictGet (d.map (fun p => (p.1, f p.2))) k = (dictGet d k).map f := by
  induction d with
  | nil => simp
  | cons p rest ih =>
    obtain ⟨k1, v⟩ := p
    by_cases h : k = k1 <;> simp [dictGet_cons, h, ih]

/-! ## Python values

`PyVal` models the dynamically typed values that can reach the provider:
booleans, ints, floats (modelled as exact rationals) and strings.
`GVal` models the values stored in `gtnet_skt_state` (only `int` and
`float` occur there). -/

inductive PyVal where
  | pbool (b : Bool)
  | pint (z : Int)
  | pfloat (q : Rat)
  | pstr (s : String)
deriving DecidableEq

inductive GVal where
  | gint (z : Int)
  | gfloat (q : Rat)
deriving DecidableEq

/-- `gtnet_skt_state` values seen through `current_values`. -/
def gvalToPy : GVal → PyVal
  | .gint z => .pint z
  | .gfloat q => .pfloat q

/-- Python `type(val).__name__`. -/
def typeName : PyVal → String
  | .pbool _ => "bool"
  | .pint _ => "int"
  | .pfloat _ => "float"
  | .pstr _ => "str"

/-! ## Python numeric conversions (`int(...)`, `float(...)`, `str(...)`) -/

/-- Whitespace for Python `str.strip()` (the characters that occur in
practice). -/
def isPySpace (c : Char) : Bool :=
  c = ' ' || c = '\t' || c = '\n' || c = '\r'

/-- `str.strip()` on a character list. -/
def trimChars (cs : List Char) : List Char :=
  ((cs.dropWhile isPySpace).reverse.dropWhile isPySpace).reverse

/-- ASCII lower-casing, as `str.lower()` does on the tag values here. -/
def lowerChar (c : Char) : Char :=
  if 65 ≤ c.toNat && c.toNat ≤ 90 then Char.ofNat (c.toNat + 32) else c

def lowerStr (s : String) : String :=
  String.mk (s.data.map lowerChar)

/-- Split a character list on a separator character. -/
def splitOnChar (c : Char) : List Char → List Char → List (List Char)
  | [], acc => [acc.reverse]
  | x :: xs, acc =>
    if x = c then acc.reverse :: splitOnChar c xs []
    else splitOnChar c xs (x :: acc)

def digitVal? (c : Char) : Option Nat :=
  if c.isDigit then some (c.toNat - 48) else none

/-- A non-empty all-digit character run as a `Nat`. -/
def digitsToNat? (cs : List Char) : Option Nat :=
  if cs.isEmpty then none
  else cs.foldl (fun acc c => acc.bind (fun n => (digitVal? c).map (fun d => n * 10 + d)))
    (some 0)

/-- Python `int(s)` for a string: optional sign followed by digits
(surrounding whitespace stripped); anything else raises `ValueError`,
modelled as `none`. -/
def parseIntPy (s : String) : Option Int :=
  match trimChars s.data with
  | '-' :: rest => (digitsToNat? rest).map (fun n => -(n : Int))
  | '+' :: rest => (digitsToNat? rest).map (fun n => (n : Int))
  | cs => (digitsToNat? cs).map (fun n => (n : Int))

def ratPow10 (z : Int) : Rat :=
  if 0 ≤ z then ((10 ^ z.toNat : Nat) : Rat)
  else (1 : Rat) / ((10 ^ (-z).toNat : Nat) : Rat)

/-- Unsigned decimal mantissa `digits[.digits]` (at least one digit). -/
def parseUnsignedDec (cs : List Char) : Option Rat :=
  match splitOnChar '.' cs [] with
  | [a] => (digitsToNat? a).map (fun n => (n : Rat))
  | [a, b] =>
    if a.isEmpty && b.isEmpty then none
    else
      match (if a.isEmpty then some 0 else digitsToNat? a),
            (if b.isEmpty then some 0 else digitsToNat? b) with
      | some n, some f => some ((n : Rat) + (f : Rat) / ((10 ^ b.length : Nat) : Rat))
      | _, _ => none
  | _ => none

def parseExponent (cs : List Char) : Option Int :=
  match cs with
  | '-' :: rest => (digitsToNat? rest).map (fun n => -(n : Int))
  | '+' :: rest => (digitsToNat? rest).map (fun n => (n : Int))
  | _ => (digitsToNat? cs).map (fun n => (n : Int))

def parseUnsignedDecExp (cs : List Char) : Option Rat :=
  match splitOnChar 'e' cs [] with
  | [m] => parseUnsignedDec m
  | [m, ex] =>
    match parseUnsignedDec m, parseExponent ex with
    | some q, some z => some (q * ratPow10 z)
    | _, _ => none
  | _ => none

/-- Python `float(s)` for a decimal string (`inf`/`nan` spellings are not
modelled; values are kept exact as rationals). -/
def parseFloatPy (s : String) : Option Rat :=
  match (trimChars s.data).map lowerChar with
  | '-' :: rest => (parseUnsignedDecExp rest).map (fun q => -q)
  | '+' :: rest => parseUnsignedDecExp rest
  | cs => parseUnsignedDecExp cs

/-- Truncation toward zero, as Python `int(float)`. -/
def truncRat (q : Rat) : Int :=
  if 0 ≤ q then q.floor else -((-q).floor)

/-- Python `int(val)` on any of the value shapes that can reach the write
path; `none` models a raised `ValueError`/`TypeError`. -/
def pyIntOf : PyVal → Option Int
  | .pbool b => some (if b then 1 else 0)
  | .pint z => some z
  | .pfloat q => some (truncRat q)
  | .pstr s => parseIntPy s

/-- Python `float(val)`. -/
def pyFloatOf : PyVal → Option Rat
  | .pbool b => some (if b then 1 else 0)
  | .pint z => some (z : Rat)
  | .pfloat q => some q
  | .pstr s => parseFloatPy s

def padLeftZeros (s : String) (n : Nat) : String :=
  String.mk (List.replicate (n - s.length) '0') ++ s

def firstPow10DenOne (q : Rat) : Nat → Nat → Option Nat
  | _, 0 => none
  | k, fuel + 1 =>
    if (q * ((10 ^ k : Nat) : Rat)).den = 1 then some k
    else firstPow10DenOne q (k + 1) fuel

/-- Python `str(float)` on values with a terminating decimal expansion
(every IEEE float has one); e.g. `2.75` renders as `"2.75"` and `7.0`
as `"7.0"`. -/
def floatRepr (q : Rat) : String :=
  if q.den = 1 then toString q.num ++ ".0"
  else
    match firstPow10DenOne q 1 40 with
    | some k =>
      let digits := (padLeftZeros (toString (q * ((10 ^ k : Nat) : Rat)).num.natAbs) (k + 1)).data
      (if q < 0 then "-" else "") ++ String.mk (digits.take (digits.length - k)) ++ "." ++
        String.mk (digits.drop (digits.length - k))
    | none => toString q

/-- Python `str(val)`. -/
def pyStr : PyVal → String
  | .pbool true => "True"
  | .pbool false => "False"
  | .pint z => toString z
  | .pfloat q => floatRepr q
  | .pstr s => s

/-! ## `struct.pack` with format `"!"` + `"i"`/`"f"` per point -/

def ratPow2 (e : Int) : Rat :=
  if 0 ≤ e then ((2 ^ e.toNat : Nat) : Rat)
  else (1 : Rat) / ((2 ^ (-e).toNat : Nat) : Rat)

/-- Largest `e` with `2 ^ e ≤ q`, for `q > 0`. -/
def ratLog2 (q : Rat) : Int :=
  let e0 : Int := (Nat.log2 q.num.toNat : Int) - (Nat.log2 q.den : Int)
  if ratPow2 (e0 + 1) ≤ q then e0 + 1
  else if ratPow2 e0 ≤ q then e0
  else e0 - 1

/-- Round to nearest, ties to even. -/
def roundHalfEven (q : Rat) : Int :=
  let n := q.floor
  let r := q - (n : Rat)
  if r < (1 : Rat) / 2 then n
  else if (1 : Rat) / 2 < r then n + 1
  else if n % 2 = 0 then n else n + 1

/-- The IEEE-754 binary32 bit pattern of a rational (round to nearest
even); `none` models the `OverflowError` that `struct.pack("f", x)`
raises when the magnitude exceeds the largest finite float32. -/
def float32bits (q : Rat) : Option Nat :=
  if q = 0 then some 0
  else
    let s : Nat := if q < 0 then 2 ^ 31 else 0
    let m : Rat := |q|
    let e : Int := ratLog2 m
    if e < -126 then
      some (s + (roundHalfEven (m * ratPow2 149)).toNat)
    else
      let mant := (roundHalfEven (m * ratPow2 (23 - e))).toNat
      let e2 : Int := if mant = 2 ^ 24 then e + 1 else e
      let mant2 : Nat := if mant = 2 ^ 24 then 2 ^ 23 else mant
      if 127 < e2 then none
      else some (s + (e2 + 127).toNat * 2 ^ 23 + (mant2 - 2 ^ 23))

/-- Big-endian (network order) 4-byte encoding of a 32-bit word. -/
def toBytesBE4 (n : Nat) : List Nat :=
  [n / 2 ^ 24 % 256, n / 2 ^ 16 % 256, n / 2 ^ 8 % 256, n % 256]

/-- `struct.pack("!i", z)`: signed 32-bit big-endian two's complement;
out-of-range values raise `struct.error` (`none`). -/
def packInt32 (z : Int) : Option (List Nat) :=
  if -(2 ^ 31) ≤ z ∧ z < 2 ^ 31 then some (toBytesBE4 ((z % (2 ^ 32 : Int)).toNat))
  else none

/-- `struct.pack("!f", q)`: IEEE-754 single precision, big-endian. -/
def packFloat32 (q : Rat) : Option (List Nat) :=
  (float32bits q).map toBytesBE4

/-- One 4-byte field, according to the format character derived from the
configured type (`"int"` → `i`, anything else → `f`, as in
`RTDS.__init__`). -/
def packValue (typ : String) (v : GVal) : Option (List Nat) :=
  if typ = "int" then
    match v with
    | .gint z => packInt32 z
    | .gfloat _ => none
  else
    match v with
    | .gfloat q => packFloat32 q
    | .gint z => packFloat32 ((z : Int) : Rat)

/-- `struct.pack(self.struct_format_string, *values)`: the format string
has one character per configured type and `pack` raises (`none`) when the
number of values does not match. -/
def packPayload : List String → List GVal → Option (List Nat)
  | [], [] => some []
  | t :: ts, v :: vs =>
    match packValue t v, packPayload ts vs with
    | some b, some rest => some (b ++ rest)
    | _, _ => none
  | _, _ => none

/-- The pre-generated `self.struct_format_string` from `RTDS.__init__`. -/
def struct_format_string (types : List String) : String :=
  "!" ++ String.mk (types.map (fun t => if t = "int" then 'i' else 'f'))

/-! ## Provider configuration and state -/

/-- The GTNET-SKT part of the provider configuration (the `.ini` options
`gtnet-skt-tag-names`, `gtnet-skt-tag-types`, `gtnet-skt-initial-values`,
already split into lists and lowercased by `_conf`, as in
`RTDS.__init__`). -/
structure Config where
  gtnet_skt_tag_names : List String
  gtnet_skt_tag_types : List String
  gtnet_skt_initial_values : List String
deriving DecidableEq

/-- The mutable provider state the claims are about. -/
structure RTDSState where
  /-- Ordered control point vector (a Python dict, insertion order =
  configuration order). -/
  gtnet_skt_state : List (String × GVal)
  /-- The tag store, `self.current_values`. -/
  current_values : List (String × PyVal)
deriving DecidableEq

namespace RTDS

/-- `self.gtnet_skt_tags = {name: typ for name, typ in zip(names, types)}`. -/
def gtnet_skt_tags (cfg : Config) : List (String × String) :=
  dictUpdate [] (cfg.gtnet_skt_tag_names.zip cfg.gtnet_skt_tag_types)

/-- The configuration validation of `RTDS.__init__` for the GTNET-SKT
options (performed only when `gtnet-skt-tag-types` is non-empty; a
violation raises `ValueError`). -/
def validGtnetConfig (cfg : Config) : Bool :=
  cfg.gtnet_skt_tag_types.isEmpty ||
    ((cfg.gtnet_skt_tag_names.length == cfg.gtnet_skt_tag_types.length) &&
     (cfg.gtnet_skt_initial_values.length == cfg.gtnet_skt_tag_types.length) &&
     decide (cfg.gtnet_skt_tag_names.length ≤ 30) &&
     cfg.gtnet_skt_tag_types.all (fun t => (t == "int") || (t == "float")))

/-- One assignment of the `__init__` seeding loop: parse the configured
initial value per the declared type (`int(val)` / `float(val)`); `none`
models the `ValueError` raised for an invalid type or unparsable value. -/
def initParse (typ val : String) : Option GVal :=
  if typ = "int" then (parseIntPy val).map .gint
  else if typ = "float" then (parseFloatPy val).map .gfloat
  else none

/-- The loop of `RTDS.__init__` that seeds `gtnet_skt_state` from
`zip(names, types, initial_values)`. -/
def initLoop (g : List (String × GVal)) :
    List (String × String × String) → Option (List (String × GVal))
  | [] => some g
  | (name, typ, val) :: rest =>
    (initParse typ val).bind (fun gv => initLoop (dictSet g name gv) rest)

/-- The GTNET-SKT part of `RTDS.__init__`: validate the configuration,
seed `gtnet_skt_state` from the configured initial values, then
`self.current_values.update(self.gtnet_skt_state)` (on the initially
empty store). `none` models an exception escaping `__init__`. -/
def init (cfg : Config) : Option RTDSState :=
  if validGtnetConfig cfg then
    (initLoop [] (cfg.gtnet_skt_tag_names.zip
        (cfg.gtnet_skt_tag_types.zip cfg.gtnet_skt_initial_values))).map
      (fun g =>
        { gtnet_skt_state := g
          current_values := dictUpdate [] (g.map (fun p => (p.1, gvalToPy p.2))) })
  else none

/-! ## `RTDS._serialize_value`, `RTDS.query`, `RTDS.read` -/

/-- `RTDS._serialize_value`: booleans render as `"true"`/`"false"`; tags
declared as `int` control points render as `"true"` iff `int(value) >= 1`;
everything else renders with `str`. `none` models `int(value)` raising. -/
def serialize_value (cfg : Config) (tag : String) (value : PyVal) : Option String :=
  match value with
  | .pbool true => some "true"
  | .pbool false => some "false"
  | _ =>
    if dictGet (gtnet_skt_tags cfg) tag = some "int" then
      (pyIntOf value).map (fun z => if 1 ≤ z then "true" else "false")
    else some (pyStr value)

/-- `RTDS.query`. -/
def query (current_values : List (String × PyVal)) : String :=
  if current_values.isEmpty then "ERR=No data points have been read yet from the RTDS"
  else "ACK=" ++ String.intercalate "," (dictKeys current_values)

/-- `RTDS.read`; `none` models an exception escaping (only possible from
`_serialize_value`). -/
def read (cfg : Config) (current_values : List (String × PyVal)) (tag : String) :
    Option String :=
  if current_values.isEmpty then
    some "ERR=Data points have not been initialized yet from the RTDS"
  else
    match dictGet current_values tag with
    | none => some "ERR=Tag not found in current values from RTDS"
    | some v => (serialize_value cfg tag v).map (fun s => "ACK=" ++ s)

/-! ## `RTDS.write` -/

/-- The warning condition in the merge loop of `RTDS.write`:
`not isinstance(val, str) and type(val).__name__ != self.gtnet_skt_tags[tag]`
(log only, no effect on state). -/
def warnsOn (typ : String) (val : PyVal) : Bool :=
  match val with
  | .pstr _ => false
  | v => typeName v != typ

/-- The per-value coercion of the merge loop of `RTDS.write`: booleans and
the texts `"false"`/`"true"` (case-insensitive) are first replaced by
`"0"`/`"1"`, then the value is cast with `int(...)` or `float(...)`
according to the declared type. `none` models a raised exception. -/
def coerceValue (typ : String) (val : PyVal) : Option GVal :=
  let val := if val = .pbool false || (match val with
      | .pstr s => lowerStr s = "false"
      | _ => false : Bool) then .pstr "0"
    else if val = .pbool true || (match val with
      | .pstr s => lowerStr s = "true"
      | _ => false : Bool) then .pstr "1"
    else val
  if typ = "int" then (pyIntOf val).map .gint
  else (pyFloatOf val).map .gfloat

/-- One iteration of the merge loop:
`self.gtnet_skt_state[tag] = typecasted_value`. The lookups depend only on
the configuration, never on the current state. -/
def mergeStep (gtags : List (String × String)) (g : List (String × GVal))
    (tv : String × PyVal) : List (String × GVal) :=
  match dictGet gtags tv.1 with
  | none => g
  | some typ =>
    match coerceValue typ tv.2 with
    | none => g
    | some gv => dictSet g tv.1 gv

/-- Result of running the merge loop: either it completes, or an exception
escapes with the state mutated up to the failing tag. -/
inductive MergeRes where
  | ok (g : List (String × GVal))
  | exn (g : List (String × GVal))
deriving DecidableEq

/-- The merge loop of `RTDS.write` over `tags.items()` in order. -/
def mergeTags (gtags : List (String × String)) :
    List (String × GVal) → List (String × PyVal) → MergeRes
  | g, [] => .ok g
  | g, (t, v) :: rest =>
    match dictGet gtags t with
    | none => .exn g
    | some typ =>
      match coerceValue typ v with
      | none => .exn g
      | some gv => mergeTags gtags (dictSet g t gv) rest

/-- Outcome of `RTDS.write`: either the method returns a message (with the
resulting state and the payload that was sent, if any), or an exception
escapes (with the partially mutated state; nothing was sent). -/
inductive WriteOutcome where
  | reply (msg : String) (st : RTDSState) (sent : Option (List Nat))
  | raised (st : RTDSState)
deriving DecidableEq

/-- `RTDS.write(tags)`, translated clause by clause:
empty request → `ERR`; any tag not in `gtnet_skt_tags` → `ERR` naming the
first such tag (no state change); otherwise coerce and merge every value
into `gtnet_skt_state` in request order, pack the whole vector with the
pre-generated format string, send it (the send-retry loop always
eventually succeeds, so it is not modelled), and merge the vector into
`current_values`. -/
def write (cfg : Config) (st : RTDSState) (tags : List (String × PyVal)) :
    WriteOutcome :=
  if tags = [] then .reply "ERR=No tags provided for write to RTDS" st none
  else
    match tags.find? (fun tv => (dictGet (gtnet_skt_tags cfg) tv.1).isNone) with
    | some tv =>
      .reply ("ERR=Invalid tag name \x27" ++ tv.1 ++ "\x27 for write to RTDS") st none
    | none =>
      match mergeTags (gtnet_skt_tags cfg) st.gtnet_skt_state tags with
      | .exn g => .raised { st with gtnet_skt_state := g }
      | .ok g =>
        match packPayload cfg.gtnet_skt_tag_types (g.map Prod.snd) with
        | none => .raised { st with gtnet_skt_state := g }
        | some payload =>
          .reply ("ACK=Wrote " ++ toString tags.length ++ " tags to RTDS via GTNET-SKT")
            { gtnet_skt_state := g
              current_values :=
                dictUpdate st.current_values (g.map (fun p => (p.1, gvalToPy p.2))) }
            (some payload)

/-- The payload spelled as the specification describes it: one 4-byte
field per declared control point, in the declared configuration order,
each field obtained by looking the point up by name in the control point
vector and encoding it per its declared type. -/
def payloadInDeclaredOrder (cfg : Config) (g : List (String × GVal)) : List Nat :=
  ((cfg.gtnet_skt_tag_names.zip cfg.gtnet_skt_tag_types).map
    (fun nt => ((dictGet g nt.1).bind (packValue nt.2)).getD [])).flatten

/-! ## The retry logic of `RTDS._poll_pmu` -/

/-- Outcome of one `pmu.get_data_frame()` call. -/
inductive PollEvent where
  | frame
  | noFrame
  | exn
deriving DecidableEq

/-- Visible action of one loop iteration. -/
inductive PollAction where
  | processed
  | sleepRetry
  | rebuild
deriving DecidableEq

/-- One iteration of the `while True` loop of `RTDS._poll_pmu`, acting on
`retry_count`: an exception rebuilds the connection (without touching
`retry_count`); an empty frame with `retry_count >= 3` rebuilds and
resets the counter; an empty frame otherwise increments it and sleeps
`retry_delay`; a data frame is processed (and leaves `retry_count`
unchanged). -/
def poll_step (retry_count : Nat) (e : PollEvent) : Nat × PollAction :=
  match e with
  | .exn => (retry_count, .rebuild)
  | .noFrame =>
    if 3 ≤ retry_count then (0, .rebuild)
    else (retry_count + 1, .sleepRetry)
  | .frame => (retry_count, .processed)

/-- The loop run over a finite sequence of poll outcomes. -/
def poll_run (retry_count : Nat) : List PollEvent → Nat × List PollAction
  | [] => (retry_count, [])
  | e :: es =>
    let (rc, a) := poll_step retry_count e
    let (rc2, as2) := poll_run rc es
    (rc2, a :: as2)

def countNoFrame (es : List PollEvent) : Nat :=
  (es.filter (fun e => e = .noFrame)).length

def countRebuild (as2 : List PollAction) : Nat :=
  (as2.filter (fun a => a = .rebuild)).length

end RTDS

/-! ## Helper lemmas about packing and the merge loop -/

/-- The state a merge-loop run left behind, whether it completed or an
exception escaped. -/
def RTDS.MergeRes.state : RTDS.MergeRes → List (String × GVal)
  | .ok g => g
  | .exn g => g

theorem toBytesBE4_length (n : Nat) : (toBytesBE4 n).length = 4 := rfl

theorem packInt32_length {z : Int} {b : List Nat} (h : packInt32 z = some b) :
    b.length = 4 := by
  unfold packInt32 at h
  split at h
  · have hb := Option.some.inj h; subst hb; rfl
  · cases h

theorem packFloat32_length {q : Rat} {b : List Nat} (h : packFloat32 q = some b) :
    b.length = 4 := by
  unfold packFloat32 at h
  cases hf : float32bits q with
  | none => rw [hf] at h; cases h
  | some n =>
    rw [hf] at h
    have hb := Option.some.inj h
    subst hb; rfl

theorem packValue_length {typ : String} {v : GVal} {b : List Nat}
    (h : packValue typ v = some b) : b.length = 4 := by
  cases v with
  | gint z =>
    by_cases ht : typ = "int"
    · unfold packValue at h
      rw [if_pos ht] at h
      exact packInt32_length h
    · unfold packValue at h
      rw [if_neg ht] at h
      exact packFloat32_length h
  | gfloat q =>
    by_cases ht : typ = "int"
    · unfold packValue at h
      rw [if_pos ht] at h
      exact Option.noConfusion h
    · unfold packValue at h
      rw [if_neg ht] at h
      exact packFloat32_length h

theorem packPayload_length :
    ∀ (ts : List String) (vs : List GVal) (p : List Nat),
      packPayload ts vs = some p → p.length = 4 * ts.length := by
  intro ts
  induction ts with
  | nil =>
    intro vs p h
    cases vs with
    | nil =>
      simp only [packPayload, Option.some.injEq] at h
      subst h; rfl
    | cons v vs => simp [packPayload] at h
  | cons t ts ih =>
    intro vs p h
    cases vs with
    | nil => simp [packPayload] at h
    | cons v vs =>
      unfold packPayload at h
      cases hb : packValue t v with
      | none => rw [hb] at h; simp at h
      | some b =>
        rw [hb] at h
        cases hr : packPayload ts vs with
        | none => rw [hr] at h; simp at h
        | some rest =>
          rw [hr] at h
          simp only [Option.some.injEq] at h
          subst h
          rw [List.length_append, packValue_length hb, ih vs rest hr]
          simp [List.length_cons, Nat.mul_add, Nat.mul_succ]
          omega

/-- A merge-loop iteration is either a no-op on every state or a
`dictSet` of a fixed value on every state (the lookups depend only on the
configuration and the request pair, never on the state). -/
theorem mergeStep_id_or_set (gtags : List (String × String)) (x : String × PyVal) :
    (∀ g, RTDS.mergeStep gtags g x = g) ∨
      (∃ gv, ∀ g, RTDS.mergeStep gtags g x = dictSet g x.1 gv) := by
  cases hs : dictGet gtags x.1 with
  | none => left; intro g; simp [RTDS.mergeStep, hs]
  | some typ =>
    cases hc : RTDS.coerceValue typ x.2 with
    | none => left; intro g; simp [RTDS.mergeStep, hs, hc]
    | some gv => right; exact ⟨gv, fun g => by simp [RTDS.mergeStep, hs, hc]⟩

theorem mergeStep_keys (gtags : List (String × String)) (g : List (String × GVal))
    (x : String × PyVal) (h : x.1 ∈ dictKeys g) :
    dictKeys (RTDS.mergeStep gtags g x) = dictKeys g := by
  rcases mergeStep_id_or_set gtags x with hid | ⟨gv, hset⟩
  · rw [hid]
  · rw [hset]; exact dictKeys_dictSet_of_mem g x.1 gv h

theorem mergeStep_comm (gtags : List (String × String)) (g : List (String × GVal))
    (x y : String × PyVal) (hne : x.1 ≠ y.1)
    (hx : x.1 ∈ dictKeys g) (hy : y.1 ∈ dictKeys g) :
    RTDS.mergeStep gtags (RTDS.mergeStep gtags g x) y =
      RTDS.mergeStep gtags (RTDS.mergeStep gtags g y) x := by
  rcases mergeStep_id_or_set gtags x with hxid | ⟨gx, hxset⟩
  · rw [hxid, hxid]
  · rcases mergeStep_id_or_set gtags y with hyid | ⟨gy, hyset⟩
    · rw [hyid, hyid]
    · rw [hxset, hyset, hxset, hyset]
      exact dictSet_comm g x.1 y.1 gx gy hne hx hy

/-- When every value of the request coerces, the merge loop is a plain
left fold of `mergeStep`. -/
theorem mergeTags_eq_foldl (gtags : List (String × String)) :
    ∀ (tags : List (String × PyVal)) (g : List (String × GVal)),
      (∀ tv ∈ tags, ∃ typ gv, dictGet gtags tv.1 = some typ ∧
        RTDS.coerceValue typ tv.2 = some gv) →
      RTDS.mergeTags gtags g tags = .ok (tags.foldl (RTDS.mergeStep gtags) g) := by
  intro tags
  induction tags with
  | nil => intro g _; rfl
  | cons tv rest ih =>
    intro g hok
    obtain ⟨t, v⟩ := tv
    obtain ⟨typ, gv, hget, hco⟩ := hok (t, v) (List.mem_cons_self _ _)
    have hstep : RTDS.mergeStep gtags g (t, v) = dictSet g t gv := by
      simp [RTDS.mergeStep, hget, hco]
    have hmt : RTDS.mergeTags gtags g ((t, v) :: rest) =
        RTDS.mergeTags gtags (dictSet g t gv) rest := by
      simp [RTDS.mergeTags, hget, hco]
    rw [hmt, List.foldl_cons, hstep]
    exact ih (dictSet g t gv) (fun tv' h' => hok tv' (List.mem_cons_of_mem _ h'))

/-- Tags not named by the request keep their value, whether the merge
loop completed or raised. -/
@[simp] theorem RTDS.MergeRes.state_ok (g : List (String × GVal)) :
    (RTDS.MergeRes.ok g).state = g := rfl

@[simp] theorem RTDS.MergeRes.state_exn (g : List (String × GVal)) :
    (RTDS.MergeRes.exn g).state = g := rfl

theorem mergeTags_get_of_not_mem (gtags : List (String × String)) :
    ∀ (tags : List (String × PyVal)) (g : List (String × GVal)) (t : String),
      t ∉ tags.map Prod.fst →
      dictGet (RTDS.mergeTags gtags g tags).state t = dictGet g t := by
  intro tags
  induction tags with
  | nil => intro g t _; rfl
  | cons tv rest ih =>
    intro g t hmem
    obtain ⟨t1, v1⟩ := tv
    simp only [List.map_cons, List.mem_cons] at hmem
    push_neg at hmem
    cases hs : dictGet gtags t1 with
    | none => simp [RTDS.mergeTags, hs]
    | some typ =>
      cases hc : RTDS.coerceValue typ v1 with
      | none => simp [RTDS.mergeTags, hs, hc]
      | some gv =>
        have hmt : RTDS.mergeTags gtags g ((t1, v1) :: rest) =
            RTDS.mergeTags gtags (dictSet g t1 gv) rest := by
          simp [RTDS.mergeTags, hs, hc]
        rw [hmt, ih (dictSet g t1 gv) t hmem.2]
        exact dictGet_dictSet_ne g t1 t gv hmem.1

/-- The merge loop preserves the key list (hence the declared order) when
every request tag is already a key of the vector. -/
theorem mergeTags_ok_keys (gtags : List (String × String)) :
    ∀ (tags : List (String × PyVal)) (g g2 : List (String × GVal)),
      RTDS.mergeTags gtags g tags = .ok g2 →
      (∀ tv ∈ tags, tv.1 ∈ dictKeys g) →
      dictKeys g2 = dictKeys g := by
  intro tags
  induction tags with
  | nil =>
    intro g g2 h _
    simp only [RTDS.mergeTags, RTDS.MergeRes.ok.injEq] at h
    rw [h]
  | cons tv rest ih =>
    intro g g2 h hmem
    obtain ⟨t1, v1⟩ := tv
    cases hs : dictGet gtags t1 with
    | none =>
      rw [show RTDS.mergeTags gtags g ((t1, v1) :: rest) = .exn g from by
        simp [RTDS.mergeTags, hs]] at h
      exact RTDS.MergeRes.noConfusion h
    | some typ =>
      cases hc : RTDS.coerceValue typ v1 with
      | none =>
        rw [show RTDS.mergeTags gtags g ((t1, v1) :: rest) = .exn g from by
          simp [RTDS.mergeTags, hs, hc]] at h
        exact RTDS.MergeRes.noConfusion h
      | some gv =>
        rw [show RTDS.mergeTags gtags g ((t1, v1) :: rest) =
            RTDS.mergeTags gtags (dictSet g t1 gv) rest from by
          simp [RTDS.mergeTags, hs, hc]] at h
        have hk1 : t1 ∈ dictKeys g := hmem (t1, v1) (List.mem_cons_self _ _)
        have hkeys := dictKeys_dictSet_of_mem g t1 gv
        have := ih (dictSet g t1 gv) g2 h (fun tv' h' => by
          rw [hkeys hk1]
          exact hmem tv' (List.mem_cons_of_mem _ h'))
        rw [this, hkeys hk1]

/-- Folding the merge loop over a permutation of a request with distinct
keys, all present in the vector, gives the same vector. -/
theorem foldl_mergeStep_perm (gtags : List (String × String)) :
    ∀ {t1 t2 : List (String × PyVal)}, t1.Perm t2 →
      (t1.map Prod.fst).Nodup →
      ∀ g : List (String × GVal), (∀ tv ∈ t1, tv.1 ∈ dictKeys g) →
      t1.foldl (RTDS.mergeStep gtags) g = t2.foldl (RTDS.mergeStep gtags) g := by
  intro t1 t2 hp
  induction hp with
  | nil => intro _ g _; rfl
  | cons x hsub ih =>
    intro hnd g hmem
    simp only [List.foldl_cons]
    have hx : x.1 ∈ dictKeys g := hmem x (List.mem_cons_self _ _)
    rw [List.map_cons, List.nodup_cons] at hnd
    exact ih hnd.2 (RTDS.mergeStep gtags g x) (fun tv h' => by
      rw [mergeStep_keys gtags g x hx]
      exact hmem tv (List.mem_cons_of_mem _ h'))
  | swap x y l =>
    intro hnd g hmem
    simp only [List.map_cons, List.nodup_cons, List.mem_cons] at hnd
    have hne : y.1 ≠ x.1 := fun hh => hnd.1 (Or.inl hh)
    have hy : y.1 ∈ dictKeys g := hmem y (List.mem_cons_self _ _)
    have hx : x.1 ∈ dictKeys g := hmem x (List.mem_cons_of_mem _ (List.mem_cons_self _ _))
    simp only [List.foldl_cons]
    rw [mergeStep_comm gtags g y x hne hy hx]
  | trans h1 h2 ih1 ih2 =>
    intro hnd g hmem
    refine (ih1 hnd g hmem).trans (ih2 ?_ g ?_)
    · exact ((h1.map Prod.fst).nodup_iff).mp hnd
    · intro tv h'
      exact hmem tv (h1.mem_iff.mpr h')

/-! ## Branch equations and inversion for `RTDS.write` -/

theorem write_eq_err_empty (cfg : Config) (st : RTDSState) :
    RTDS.write cfg st [] = .reply "ERR=No tags provided for write to RTDS" st none := by
  simp [RTDS.write]

theorem write_eq_err_invalid (cfg : Config) (st : RTDSState)
    (tags : List (String × PyVal)) (tv : String × PyVal)
    (htags : tags ≠ [])
    (hf : tags.find? (fun tv => (dictGet (RTDS.gtnet_skt_tags cfg) tv.1).isNone) = some tv) :
    RTDS.write cfg st tags =
      .reply ("ERR=Invalid tag name \x27" ++ tv.1 ++ "\x27 for write to RTDS") st none := by
  simp [RTDS.write, htags, hf]

theorem write_eq_exn (cfg : Config) (st : RTDSState)
    (tags : List (String × PyVal)) (g : List (String × GVal))
    (htags : tags ≠ [])
    (hf : tags.find? (fun tv => (dictGet (RTDS.gtnet_skt_tags cfg) tv.1).isNone) = none)
    (hm : RTDS.mergeTags (RTDS.gtnet_skt_tags cfg) st.gtnet_skt_state tags = .exn g) :
    RTDS.write cfg st tags = .raised { st with gtnet_skt_state := g } := by
  simp [RTDS.write, htags, hf, hm]

theorem write_eq_pack_fail (cfg : Config) (st : RTDSState)
    (tags : List (String × PyVal)) (g : List (String × GVal))
    (htags : tags ≠ [])
    (hf : tags.find? (fun tv => (dictGet (RTDS.gtnet_skt_tags cfg) tv.1).isNone) = none)
    (hm : RTDS.mergeTags (RTDS.gtnet_skt_tags cfg) st.gtnet_skt_state tags = .ok g)
    (hp : packPayload cfg.gtnet_skt_tag_types (g.map Prod.snd) = none) :
    RTDS.write cfg st tags = .raised { st with gtnet_skt_state := g } := by
  simp [RTDS.write, htags, hf, hm, hp]

theorem write_eq_of_ok (cfg : Config) (st : RTDSState)
    (tags : List (String × PyVal)) (g : List (String × GVal)) (payload : List Nat)
    (htags : tags ≠ [])
    (hf : tags.find? (fun tv => (dictGet (RTDS.gtnet_skt_tags cfg) tv.1).isNone) = none)
    (hm : RTDS.mergeTags (RTDS.gtnet_skt_tags cfg) st.gtnet_skt_state tags = .ok g)
    (hp : packPayload cfg.gtnet_skt_tag_types (g.map Prod.snd) = some payload) :
    RTDS.write cfg st tags =
      .reply ("ACK=Wrote " ++ toString tags.length ++ " tags to RTDS via GTNET-SKT")
        { gtnet_skt_state := g
          current_values := dictUpdate st.current_values
            (g.map (fun q => (q.1, gvalToPy q.2))) }
        (some payload) := by
  simp [RTDS.write, htags, hf, hm, hp]

/-- Anything `RTDS.write` replies with is either a rejection that left the
state untouched and sent nothing, or a completed merge whose full packed
vector was sent. -/
theorem write_reply_inv (cfg : Config) (st : RTDSState)
    (tags : List (String × PyVal)) (m : String) (st' : RTDSState)
    (sent : Option (List Nat))
    (h : RTDS.write cfg st tags = .reply m st' sent) :
    (st' = st ∧ sent = none) ∨
    ∃ g, RTDS.mergeTags (RTDS.gtnet_skt_tags cfg) st.gtnet_skt_state tags = .ok g ∧
      st'.gtnet_skt_state = g ∧
      st'.current_values = dictUpdate st.current_values
        (g.map (fun q => (q.1, gvalToPy q.2))) ∧
      (∃ p, sent = some p ∧
        packPayload cfg.gtnet_skt_tag_types (g.map Prod.snd) = some p) ∧
      tags ≠ [] ∧
      tags.find? (fun tv => (dictGet (RTDS.gtnet_skt_tags cfg) tv.1).isNone) = none := by
  by_cases htags : tags = []
  · left
    subst htags
    rw [write_eq_err_empty cfg st] at h
    injection h with h1 h2 h3
    exact ⟨h2.symm, h3.symm⟩
  · cases hf : tags.find? (fun tv => (dictGet (RTDS.gtnet_skt_tags cfg) tv.1).isNone) with
    | some tv =>
      left
      rw [write_eq_err_invalid cfg st tags tv htags hf] at h
      injection h with h1 h2 h3
      exact ⟨h2.symm, h3.symm⟩
    | none =>
      cases hm : RTDS.mergeTags (RTDS.gtnet_skt_tags cfg) st.gtnet_skt_state tags with
      | exn g =>
        rw [write_eq_exn cfg st tags g htags hf hm] at h
        exact RTDS.WriteOutcome.noConfusion h
      | ok g =>
        cases hp : packPayload cfg.gtnet_skt_tag_types (g.map Prod.snd) with
        | none =>
          rw [write_eq_pack_fail cfg st tags g htags hf hm hp] at h
          exact RTDS.WriteOutcome.noConfusion h
        | some payload =>
          right
          rw [write_eq_of_ok cfg st tags g payload htags hf hm hp] at h
          injection h with h1 h2 h3
          refine ⟨g, rfl, ?_, ?_, ⟨payload, h3.symm, hp⟩, htags, rfl⟩
          · rw [← h2]
          · rw [← h2]

/-! ## The payload in declared order -/

/-- The keys of `gtnet_skt_tags` are the configured names, in order. -/
theorem gtnet_skt_tags_keys (cfg : Config)
    (hnd : cfg.gtnet_skt_tag_names.Nodup)
    (hlen : cfg.gtnet_skt_tag_names.length = cfg.gtnet_skt_tag_types.length) :
    dictKeys (RTDS.gtnet_skt_tags cfg) = cfg.gtnet_skt_tag_names := by
  unfold RTDS.gtnet_skt_tags
  have hfst : (cfg.gtnet_skt_tag_names.zip cfg.gtnet_skt_tag_types).map Prod.fst
      = cfg.gtnet_skt_tag_names := List.map_fst_zip _ _ (le_of_eq hlen)
  rw [dictUpdate_nil_of_nodup _ (by rw [hfst]; exact hnd)]
  exact hfst

/-- A successfully packed vector, read off by looking each declared name
up in the vector: the packed bytes are exactly the per-name 4-byte fields
in key order. -/
theorem packPayload_eq_declared :
    ∀ (g : List (String × GVal)) (types : List String) (p : List Nat),
      (dictKeys g).Nodup →
      packPayload types (g.map Prod.snd) = some p →
      p = (((dictKeys g).zip types).map
            (fun nt => ((dictGet g nt.1).bind (packValue nt.2)).getD [])).flatten := by
  intro g
  induction g with
  | nil =>
    intro types p _ h
    cases types with
    | nil =>
      simp only [packPayload, Option.some.injEq] at h
      subst h; rfl
    | cons t ts => simp [packPayload] at h
  | cons kv g2 ih =>
    intro types p hnd h
    obtain ⟨k, v⟩ := kv
    cases types with
    | nil => simp [packPayload] at h
    | cons t ts =>
      simp only [List.map_cons] at h
      unfold packPayload at h
      cases hb : packValue t v with
      | none => rw [hb] at h; simp at h
      | some b =>
        rw [hb] at h
        cases hr : packPayload ts (g2.map Prod.snd) with
        | none => rw [hr] at h; simp at h
        | some rest =>
          rw [hr] at h
          simp only [Option.some.injEq] at h
          subst h
          simp only [dictKeys_cons] at hnd ⊢
          rw [List.nodup_cons] at hnd
          rw [List.zip_cons_cons, List.map_cons, List.flatten_cons]
          have hhead : ((dictGet ((k, v) :: g2) k).bind (packValue t)).getD [] = b := by
            rw [dictGet_cons, if_pos rfl]
            simp [hb]
          rw [hhead]
          have htail :
              ((dictKeys g2).zip ts).map
                  (fun nt => ((dictGet ((k, v) :: g2) nt.1).bind (packValue nt.2)).getD []) =
              ((dictKeys g2).zip ts).map
                  (fun nt => ((dictGet g2 nt.1).bind (packValue nt.2)).getD []) := by
            apply List.map_congr_left
            intro nt hnt
            have hmem : nt.1 ∈ dictKeys g2 := by
              obtain ⟨n1, n2⟩ := nt
              exact (List.of_mem_zip hnt).1
            have hne : nt.1 ≠ k := fun hh => hnd.1 (hh ▸ hmem)
            rw [dictGet_cons, if_neg hne]
          rw [htail, ih ts rest hnd.2 hr]

/-! ## Concrete fixtures used by witnesses and counterexamples

`cfgW` declares two `int` control points so that every kernel evaluation
stays in integer arithmetic; `stW` is exactly the state `RTDS.init cfgW`
builds, and `stW2` the state after writing `"2"` to `"B"`. -/

def cfgW : Config :=
  { gtnet_skt_tag_names := ["A", "B"]
    gtnet_skt_tag_types := ["int", "int"]
    gtnet_skt_initial_values := ["0", "1"] }

def stW : RTDSState :=
  { gtnet_skt_state := [("A", GVal.gint 0), ("B", GVal.gint 1)]
    current_values := [("A", PyVal.pint 0), ("B", PyVal.pint 1)] }

def stW2 : RTDSState :=
  { gtnet_skt_state := [("A", GVal.gint 0), ("B", GVal.gint 2)]
    current_values := [("A", PyVal.pint 0), ("B", PyVal.pint 2)] }

/-! ## C1 -/

/-- C1: for every write request whose tags are all declared control
points, the binary payload produced and sent by `RTDS.write` has length
exactly 4 bytes times the number of declared control points, regardless
of how many tags the request contains. -/
theorem write_payload_length (cfg : Config) (st : RTDSState)
    (tags : List (String × PyVal)) (m : String) (st' : RTDSState) (p : List Nat)
    (hlen : cfg.gtnet_skt_tag_names.length = cfg.gtnet_skt_tag_types.length)
    (_hall : ∀ tv ∈ tags, tv.1 ∈ dictKeys (RTDS.gtnet_skt_tags cfg))
    (h : RTDS.write cfg st tags = .reply m st' (some p)) :
    p.length = 4 * cfg.gtnet_skt_tag_names.length := by
  rcases write_reply_inv cfg st tags m st' (some p) h with
    ⟨_, hnone⟩ | ⟨g, _, _, _, ⟨p2, hp2, hpack⟩, _, _⟩
  · exact absurd hnone (by simp)
  · obtain rfl : p = p2 := Option.some.inj hp2
    rw [hlen]
    exact packPayload_length _ _ _ hpack

/-- Witness for C1 at a two-point configuration: a write touching only
one tag still produces an 8-byte payload. -/
theorem write_payload_length_witness :
    cfgW.gtnet_skt_tag_names.length = cfgW.gtnet_skt_tag_types.length ∧
    RTDS.write cfgW stW [("B", PyVal.pstr "2")] =
      .reply "ACK=Wrote 1 tags to RTDS via GTNET-SKT" stW2
        (some [0, 0, 0, 0, 0, 0, 0, 2]) ∧
    ([0, 0, 0, 0, 0, 0, 0, 2] : List Nat).length = 4 * cfgW.gtnet_skt_tag_names.length :=
  ⟨by decide, by decide,
    write_payload_length cfgW stW [("B", PyVal.pstr "2")]
      "ACK=Wrote 1 tags to RTDS via GTNET-SKT" stW2 [0, 0, 0, 0, 0, 0, 0, 2]
      (by decide) (by decide) (by decide)⟩

/-! ## C3 -/

/-- C3: for every write request containing at least one tag that is not a
declared control point, and for every empty write request, `RTDS.write`
returns an `ERR` message, sends no packet and mutates no state: the reply
carries the input state itself (so both `gtnet_skt_state` and
`current_values` are unchanged and a subsequent read of any previously
written tag returns its prior value) and `sent` is `none`. -/
theorem write_invalid_rejected (cfg : Config) (st : RTDSState)
    (tags : List (String × PyVal))
    (h : tags = [] ∨ ∃ tv ∈ tags, dictGet (RTDS.gtnet_skt_tags cfg) tv.1 = none) :
    ∃ msg, RTDS.write cfg st tags = .reply msg st none ∧
      (msg = "ERR=No tags provided for write to RTDS" ∨
        ∃ t, msg = "ERR=Invalid tag name \x27" ++ t ++ "\x27 for write to RTDS") := by
  rcases h with h | ⟨tv, htv, hnone⟩
  · subst h
    exact ⟨_, write_eq_err_empty cfg st, Or.inl rfl⟩
  · have htags : tags ≠ [] := by
      intro hh; subst hh; exact absurd htv (List.not_mem_nil _)
    cases hf : tags.find? (fun tv => (dictGet (RTDS.gtnet_skt_tags cfg) tv.1).isNone) with
    | none =>
      have := List.find?_eq_none.mp hf tv htv
      rw [hnone] at this
      exact absurd rfl this
    | some tv0 =>
      exact ⟨_, write_eq_err_invalid cfg st tags tv0 htags hf, Or.inr ⟨tv0.1, rfl⟩⟩

/-- Witness for C3: writing the undeclared tag `"Z"` is rejected with the
input state returned untouched and nothing sent. -/
theorem write_invalid_rejected_witness :
    (∃ tv ∈ ([("Z", PyVal.pstr "1")] : List (String × PyVal)),
      dictGet (RTDS.gtnet_skt_tags cfgW) tv.1 = none) ∧
    ∃ msg, RTDS.write cfgW stW [("Z", PyVal.pstr "1")] = .reply msg stW none ∧
      (msg = "ERR=No tags provided for write to RTDS" ∨
        ∃ t, msg = "ERR=Invalid tag name \x27" ++ t ++ "\x27 for write to RTDS") :=
  ⟨by decide, write_invalid_rejected cfgW stW [("Z", PyVal.pstr "1")] (Or.inr (by decide))⟩

/-! ## C4 -/

/-- C4: a write to one control point leaves the stored values of all
other control points unchanged: whenever `RTDS.write` returns (rather
than raising), every tag not named in the request keeps exactly the value
it had before in the control point vector, so the next emitted packet
still contains the last-written (or initial) value of every other tag and
no field is ever reset by a write that does not name it. -/
theorem write_frame_preservation (cfg : Config) (st : RTDSState)
    (tags : List (String × PyVal)) (m : String) (st' : RTDSState)
    (sent : Option (List Nat))
    (h : RTDS.write cfg st tags = .reply m st' sent)
    (t : String) (ht : t ∉ tags.map Prod.fst) :
    dictGet st'.gtnet_skt_state t = dictGet st.gtnet_skt_state t := by
  rcases write_reply_inv cfg st tags m st' sent h with
    ⟨hst, _⟩ | ⟨g, hm, hg, _, _, _, _⟩
  · rw [hst]
  · rw [hg]
    have hval := mergeTags_get_of_not_mem (RTDS.gtnet_skt_tags cfg) tags
      st.gtnet_skt_state t ht
    rw [hm] at hval
    simpa using hval

/-- Witness for C4: after writing only `"B"`, tag `"A"` still holds its
previous value (and the emitted packet still encodes it). -/
theorem write_frame_preservation_witness :
    RTDS.write cfgW stW [("B", PyVal.pstr "2")] =
      .reply "ACK=Wrote 1 tags to RTDS via GTNET-SKT" stW2
        (some [0, 0, 0, 0, 0, 0, 0, 2]) ∧
    dictGet stW2.gtnet_skt_state "A" = dictGet stW.gtnet_skt_state "A" :=
  ⟨by decide,
    write_frame_preservation cfgW stW [("B", PyVal.pstr "2")]
      "ACK=Wrote 1 tags to RTDS via GTNET-SKT" stW2 (some [0, 0, 0, 0, 0, 0, 0, 2])
      (by decide) "A" (by decide)⟩

/-! ## C10 -/

/-- C10: a write request whose tags are all declared but one of whose
values cannot be coerced (text `"abc"` for an `int` point) makes
`RTDS.write` raise out of the merge loop instead of returning an `ERR`
reply: the outcome is `raised`, no packet is sent, the earlier tag `"A"`
has already been updated in `gtnet_skt_state` (from 0 to 5) while
`current_values` is untouched — the all-or-nothing guarantee does not
extend to coercion failures. -/
theorem write_coercion_failure_partial_mutation :
    RTDS.write cfgW stW [("A", PyVal.pstr "5"), ("B", PyVal.pstr "abc")] =
      .raised { gtnet_skt_state := [("A", GVal.gint 5), ("B", GVal.gint 1)]
                current_values := stW.current_values } ∧
    RTDS.coerceValue "int" (PyVal.pstr "abc") = none ∧
    dictGet stW.gtnet_skt_state "A" = some (GVal.gint 0) := by
  refine ⟨by decide, by decide, by decide⟩

/-! ## C2 -/

/-- C2: in every payload emitted by `RTDS.write`, the 4-byte fields
appear in the order the control points were declared in configuration
(`gtnet-skt-tag-names` order), independent of the key order of the write
request's mapping, with each field encoded big-endian — signed 32-bit
integer for points declared `int` and IEEE-754 single precision for
points declared `float` (that is the per-field encoding `packValue` used
by `payloadInDeclaredOrder`). First conjunct: the emitted payload equals
the per-name fields looked up in declared order. Second conjunct: two
write requests that are permutations of each other (distinct keys, all
declared and coercible) produce identical outcomes, hence identical
payloads. -/
theorem write_payload_declared_order (cfg : Config) (st : RTDSState)
    (hnd : cfg.gtnet_skt_tag_names.Nodup)
    (hlen : cfg.gtnet_skt_tag_names.length = cfg.gtnet_skt_tag_types.length)
    (hst : dictKeys st.gtnet_skt_state = cfg.gtnet_skt_tag_names) :
    (∀ tags m st' p, RTDS.write cfg st tags = .reply m st' (some p) →
      dictKeys st'.gtnet_skt_state = cfg.gtnet_skt_tag_names ∧
      p = RTDS.payloadInDeclaredOrder cfg st'.gtnet_skt_state) ∧
    (∀ tags1 tags2 : List (String × PyVal), tags1.Perm tags2 →
      (tags1.map Prod.fst).Nodup →
      (∀ tv ∈ tags1, ∃ typ gv, dictGet (RTDS.gtnet_skt_tags cfg) tv.1 = some typ ∧
        RTDS.coerceValue typ tv.2 = some gv) →
      RTDS.write cfg st tags1 = RTDS.write cfg st tags2) := by
  have hkeys_tags : dictKeys (RTDS.gtnet_skt_tags cfg) = cfg.gtnet_skt_tag_names :=
    gtnet_skt_tags_keys cfg hnd hlen
  constructor
  · intro tags m st' p h
    rcases write_reply_inv cfg st tags m st' (some p) h with
      ⟨_, hnone⟩ | ⟨g, hm, hg, _, ⟨p2, hp2, hpack⟩, htags, hf⟩
    · exact absurd hnone (by simp)
    · obtain rfl : p = p2 := Option.some.inj hp2
      have hall : ∀ tv ∈ tags, tv.1 ∈ dictKeys st.gtnet_skt_state := by
        intro tv htv
        have hnotnone := List.find?_eq_none.mp hf tv htv
        have hsome : (dictGet (RTDS.gtnet_skt_tags cfg) tv.1).isSome := by
          cases hd : dictGet (RTDS.gtnet_skt_tags cfg) tv.1 with
          | none => exact absurd (by rw [hd]; rfl) hnotnone
          | some _ => rfl
        rw [hst, ← hkeys_tags]
        exact (dictGet_isSome_iff_mem _ _).mp hsome
      have hkeysg : dictKeys g = cfg.gtnet_skt_tag_names := by
        rw [mergeTags_ok_keys (RTDS.gtnet_skt_tags cfg) tags st.gtnet_skt_state g hm hall,
          hst]
      constructor
      · rw [hg]; exact hkeysg
      · rw [hg]
        have hdecl := packPayload_eq_declared g cfg.gtnet_skt_tag_types p
          (by rw [hkeysg]; exact hnd) hpack
        rw [RTDS.payloadInDeclaredOrder, ← hkeysg]
        exact hdecl
  · intro tags1 tags2 hperm hnd1 hco
    by_cases h0 : tags1 = []
    · subst h0
      rw [hperm.symm.eq_nil]
    · have h0' : tags2 ≠ [] := by
        intro hh
        subst hh
        exact h0 hperm.eq_nil
      have hco2 : ∀ tv ∈ tags2, ∃ typ gv,
          dictGet (RTDS.gtnet_skt_tags cfg) tv.1 = some typ ∧
          RTDS.coerceValue typ tv.2 = some gv :=
        fun tv htv => hco tv (hperm.mem_iff.mpr htv)
      have hfind1 : tags1.find?
          (fun tv => (dictGet (RTDS.gtnet_skt_tags cfg) tv.1).isNone) = none := by
        rw [List.find?_eq_none]
        intro tv htv
        obtain ⟨typ, gv, hget, _⟩ := hco tv htv
        simp [hget]
      have hfind2 : tags2.find?
          (fun tv => (dictGet (RTDS.gtnet_skt_tags cfg) tv.1).isNone) = none := by
        rw [List.find?_eq_none]
        intro tv htv
        obtain ⟨typ, gv, hget, _⟩ := hco2 tv htv
        simp [hget]
      have hall1 : ∀ tv ∈ tags1, tv.1 ∈ dictKeys st.gtnet_skt_state := by
        intro tv htv
        obtain ⟨typ, gv, hget, _⟩ := hco tv htv
        rw [hst, ← hkeys_tags]
        exact mem_dictKeys_of_dictGet hget
      have hm1 := mergeTags_eq_foldl (RTDS.gtnet_skt_tags cfg) tags1
        st.gtnet_skt_state hco
      have hm2 := mergeTags_eq_foldl (RTDS.gtnet_skt_tags cfg) tags2
        st.gtnet_skt_state hco2
      have hfold := foldl_mergeStep_perm (RTDS.gtnet_skt_tags cfg) hperm hnd1
        st.gtnet_skt_state hall1
      rw [← hfold] at hm2
      cases hp : packPayload cfg.gtnet_skt_tag_types
          ((tags1.foldl (RTDS.mergeStep (RTDS.gtnet_skt_tags cfg))
            st.gtnet_skt_state).map Prod.snd) with
      | none =>
        rw [write_eq_pack_fail cfg st tags1 _ h0 hfind1 hm1 hp,
          write_eq_pack_fail cfg st tags2 _ h0' hfind2 hm2 hp]
      | some payload =>
        rw [write_eq_of_ok cfg st tags1 _ payload h0 hfind1 hm1 hp,
          write_eq_of_ok cfg st tags2 _ payload h0' hfind2 hm2 hp,
          hperm.length_eq]

/-- Witness for C2: a concrete write's payload equals the declared-order
rendering, and swapping the two keys of a request leaves the outcome
unchanged. -/
theorem write_payload_declared_order_witness :
    ([0, 0, 0, 0, 0, 0, 0, 2] : List Nat) =
      RTDS.payloadInDeclaredOrder cfgW stW2.gtnet_skt_state ∧
    RTDS.write cfgW stW [("A", PyVal.pstr "3"), ("B", PyVal.pstr "4")] =
      RTDS.write cfgW stW [("B", PyVal.pstr "4"), ("A", PyVal.pstr "3")] :=
  ⟨((write_payload_declared_order cfgW stW (by decide) (by decide) (by decide)).1
      [("B", PyVal.pstr "2")] "ACK=Wrote 1 tags to RTDS via GTNET-SKT" stW2
      [0, 0, 0, 0, 0, 0, 0, 2] (by decide)).2,
    (write_payload_declared_order cfgW stW (by decide) (by decide) (by decide)).2
      [("A", PyVal.pstr "3"), ("B", PyVal.pstr "4")]
      [("B", PyVal.pstr "4"), ("A", PyVal.pstr "3")]
      (List.Perm.swap ("B", PyVal.pstr "4") ("A", PyVal.pstr "3") [])
      (by decide)
      (fun tv htv => by
        rcases List.mem_cons.mp htv with h1 | h2
        · subst h1
          exact ⟨"int", GVal.gint 3, by decide, by decide⟩
        · rcases List.mem_cons.mp h2 with h3 | h4
          · subst h3
            exact ⟨"int", GVal.gint 4, by decide, by decide⟩
          · exact absurd h4 (List.not_mem_nil _))⟩

/-! ## C5 -/

/-- Counterexample to C5 as stated: the text `"abc"` supplied for an
`int` point is a mismatch between the supplied value's type (`str`) and
the declared type, yet the merge loop's warning condition does not fire
(string values are exempt from the check) and the coercion raises
`ValueError` — an error, not a warning. -/
theorem coerce_mismatch_error_counterexample :
    typeName (PyVal.pstr "abc") ≠ "int" ∧
    RTDS.warnsOn "int" (PyVal.pstr "abc") = false ∧
    RTDS.coerceValue "int" (PyVal.pstr "abc") = none := by
  refine ⟨by decide, by decide, by decide⟩

/-- C5 amended: boolean `false` / text `"false"` (case-insensitive)
coerces to 0 and `true`/`"true"` to 1 (of the declared type); for
non-string values a declared/actual type mismatch triggers the warning
and the cast still always succeeds; string values never trigger the
warning (and may instead raise when unparsable, per C10). -/
theorem coerce_value_spec (typ : String) (v : PyVal) :
    (RTDS.coerceValue typ (PyVal.pbool false) =
      (if typ = "int" then some (GVal.gint 0) else some (GVal.gfloat 0))) ∧
    (RTDS.coerceValue typ (PyVal.pbool true) =
      (if typ = "int" then some (GVal.gint 1) else some (GVal.gfloat 1))) ∧
    (∀ s : String, lowerStr s = "false" →
      RTDS.coerceValue typ (PyVal.pstr s) =
        (if typ = "int" then some (GVal.gint 0) else some (GVal.gfloat 0))) ∧
    (∀ s : String, lowerStr s = "true" →
      RTDS.coerceValue typ (PyVal.pstr s) =
        (if typ = "int" then some (GVal.gint 1) else some (GVal.gfloat 1))) ∧
    (RTDS.warnsOn typ v = true → (RTDS.coerceValue typ v).isSome = true) ∧
    (∀ s : String, RTDS.warnsOn typ (PyVal.pstr s) = false) := by
  have hfalse : RTDS.coerceValue typ (PyVal.pbool false) =
      (if typ = "int" then some (GVal.gint 0) else some (GVal.gfloat 0)) := rfl
  have htrue : RTDS.coerceValue typ (PyVal.pbool true) =
      (if typ = "int" then some (GVal.gint 1) else some (GVal.gfloat 1)) := rfl
  refine ⟨hfalse, htrue, ?_, ?_, ?_, fun s => rfl⟩
  · intro s hs
    have hnorm : RTDS.coerceValue typ (PyVal.pstr s) =
        RTDS.coerceValue typ (PyVal.pbool false) := by
      simp [RTDS.coerceValue, hs]
    rw [hnorm, hfalse]
  · intro s hs
    have hnotfalse : lowerStr s ≠ "false" := by
      rw [hs]; decide
    have hnorm : RTDS.coerceValue typ (PyVal.pstr s) =
        RTDS.coerceValue typ (PyVal.pbool true) := by
      simp [RTDS.coerceValue, hs, hnotfalse]
    rw [hnorm, htrue]
  · intro hw
    cases v with
    | pstr s => simp [RTDS.warnsOn] at hw
    | pbool b =>
      cases b with
      | false => rw [hfalse]; by_cases ht : typ = "int" <;> simp [ht]
      | true => rw [htrue]; by_cases ht : typ = "int" <;> simp [ht]
    | pint z =>
      by_cases ht : typ = "int" <;> simp [RTDS.coerceValue, ht, pyIntOf, pyFloatOf]
    | pfloat q =>
      by_cases ht : typ = "int" <;> simp [RTDS.coerceValue, ht, pyIntOf, pyFloatOf]

/-- Witness for the amended C5: an `int` value supplied for a `float`
point is a mismatch that warns, and its coercion succeeds. -/
theorem coerce_value_spec_witness :
    RTDS.warnsOn "float" (PyVal.pint 3) = true ∧
    (RTDS.coerceValue "float" (PyVal.pint 3)).isSome = true :=
  ⟨by decide, (coerce_value_spec "float" (PyVal.pint 3)).2.2.2.2.1 (by decide)⟩

/-! ## C6 -/

/-- Appending after `"ACK="` can never produce a string beginning
`"ERR="`. -/
theorem ack_ne_err (s t : String) : ("ACK=" ++ s) ≠ ("ERR=" ++ t) := by
  intro h
  have hd : 'A' :: ('C' :: ('K' :: ('=' :: s.data))) =
      'E' :: ('R' :: ('R' :: ('=' :: t.data))) := congrArg String.data h
  injection hd with h1 _
  exact absurd h1 (by decide)

/-- Counterexample to C6 as stated: with a control point declared,
`current_values` is pre-seeded by `__init__`, so a `read` issued before
any source has produced data does not return the "not initialized" error
(here it returns the rendered initial value of `"A"`). -/
theorem read_preseeded_counterexample :
    RTDS.init cfgW = some stW ∧
    RTDS.read cfgW stW.current_values "A" ≠
      some "ERR=Data points have not been initialized yet from the RTDS" := by
  refine ⟨by decide, by decide⟩

/-- C6 amended: `read` returns the "not initialized" error exactly when
the tag store is empty (which, before any measurement, happens only when
no control points are declared); with a non-empty store it returns the
"tag not found" error for an absent tag and `ACK=` plus the rendered
value for a present tag. -/
theorem read_spec (cfg : Config) (cv : List (String × PyVal)) (tag : String) :
    (cv = [] → RTDS.read cfg cv tag =
      some "ERR=Data points have not been initialized yet from the RTDS") ∧
    (cv ≠ [] → dictGet cv tag = none → RTDS.read cfg cv tag =
      some "ERR=Tag not found in current values from RTDS") ∧
    (∀ v, cv ≠ [] → dictGet cv tag = some v →
      RTDS.read cfg cv tag =
        (RTDS.serialize_value cfg tag v).map (fun s => "ACK=" ++ s)) := by
  refine ⟨?_, ?_, ?_⟩
  · intro h; subst h; rfl
  · intro h hn
    have hne : cv.isEmpty = false := by
      cases cv with
      | nil => exact absurd rfl h
      | cons a l => rfl
    simp [RTDS.read, hne, hn]
  · intro v h hv
    have hne : cv.isEmpty = false := by
      cases cv with
      | nil => exact absurd rfl h
      | cons a l => rfl
    simp [RTDS.read, hne, hv]

/-- Witness for the amended C6: reading the declared point `"A"` from the
seeded store yields `ACK=` plus its rendered value. -/
theorem read_spec_witness :
    dictGet stW.current_values "A" = some (PyVal.pint 0) ∧
    RTDS.read cfgW stW.current_values "A" =
      (RTDS.serialize_value cfgW "A" (PyVal.pint 0)).map (fun s => "ACK=" ++ s) :=
  ⟨by decide,
    (read_spec cfgW stW.current_values "A").2.2 (PyVal.pint 0) (by decide) (by decide)⟩

/-! ## C7 -/

/-- Counterexample to C7 as stated: a successful frame does NOT restart
the count of consecutive soft failures. After two soft failures, a
successful frame and two more soft failures, the loop already forces a
reconnect (the `rebuild` at the end), although only two consecutive soft
failures preceded it. -/
theorem poll_retry_counterexample :
    RTDS.poll_run 0 [RTDS.PollEvent.noFrame, RTDS.PollEvent.noFrame,
        RTDS.PollEvent.frame, RTDS.PollEvent.noFrame, RTDS.PollEvent.noFrame] =
      (0, [RTDS.PollAction.sleepRetry, RTDS.PollAction.sleepRetry,
        RTDS.PollAction.processed, RTDS.PollAction.sleepRetry,
        RTDS.PollAction.rebuild]) := by
  decide

/-- C7 amended: the soft-failure counter is cumulative since the last
threshold reconnect: starting from `retry_count ≤ 3` and in absence of
exceptions, a full reconnect is forced exactly on every 4th empty poll
(counted across the whole run, not consecutively), the first three
sleeping the retry delay; a successful frame leaves the counter — and
hence the distance to the next reconnect — unchanged. -/
theorem poll_retry_amended (rc : Nat) (es : List RTDS.PollEvent)
    (h1 : RTDS.PollEvent.exn ∉ es) (h2 : rc ≤ 3) :
    RTDS.countRebuild (RTDS.poll_run rc es).2 = (rc + RTDS.countNoFrame es) / 4 ∧
    ∀ n, RTDS.poll_step n RTDS.PollEvent.frame = (n, RTDS.PollAction.processed) := by
  refine ⟨?_, fun n => rfl⟩
  revert h2
  revert rc
  revert h1
  induction es with
  | nil =>
    intro _ rc h2
    have : RTDS.countNoFrame [] = 0 := rfl
    rw [this]
    have : RTDS.countRebuild (RTDS.poll_run rc []).2 = 0 := rfl
    rw [this]
    omega
  | cons e es ih =>
    intro h1 rc h2
    have h1' : RTDS.PollEvent.exn ∉ es := fun hh => h1 (List.mem_cons_of_mem _ hh)
    cases e with
    | exn => exact absurd (List.mem_cons_self _ _) h1
    | frame =>
      rcases hres : RTDS.poll_run rc es with ⟨rc2, as2⟩
      have hrun : RTDS.poll_run rc (RTDS.PollEvent.frame :: es) =
          (rc2, RTDS.PollAction.processed :: as2) := by
        simp [RTDS.poll_run, RTDS.poll_step, hres]
      rw [hrun]
      have hcnt : RTDS.countNoFrame (RTDS.PollEvent.frame :: es) =
          RTDS.countNoFrame es := by
        simp [RTDS.countNoFrame, List.filter]
      have hreb : RTDS.countRebuild (RTDS.PollAction.processed :: as2) =
          RTDS.countRebuild as2 := by
        simp [RTDS.countRebuild, List.filter]
      have hih := ih h1' rc h2
      rw [hres] at hih
      rw [hcnt, hreb]
      exact hih
    | noFrame =>
      have hcnt : RTDS.countNoFrame (RTDS.PollEvent.noFrame :: es) =
          RTDS.countNoFrame es + 1 := by
        simp [RTDS.countNoFrame, List.filter]
      by_cases h3 : 3 ≤ rc
      · have hrc : rc = 3 := le_antisymm h2 h3
        subst hrc
        rcases hres : RTDS.poll_run 0 es with ⟨rc2, as2⟩
        have hrun : RTDS.poll_run 3 (RTDS.PollEvent.noFrame :: es) =
            (rc2, RTDS.PollAction.rebuild :: as2) := by
          simp [RTDS.poll_run, RTDS.poll_step, hres]
        rw [hrun]
        have hreb : RTDS.countRebuild (RTDS.PollAction.rebuild :: as2) =
            RTDS.countRebuild as2 + 1 := by
          simp [RTDS.countRebuild, List.filter]
        have hih := ih h1' 0 (by omega)
        rw [hres] at hih
        rw [hcnt, hreb, hih]
        omega
      · rcases hres : RTDS.poll_run (rc + 1) es with ⟨rc2, as2⟩
        have hrun : RTDS.poll_run rc (RTDS.PollEvent.noFrame :: es) =
            (rc2, RTDS.PollAction.sleepRetry :: as2) := by
          simp [RTDS.poll_run, RTDS.poll_step, h3, hres]
        rw [hrun]
        have hreb : RTDS.countRebuild (RTDS.PollAction.sleepRetry :: as2) =
            RTDS.countRebuild as2 := by
          simp [RTDS.countRebuild, List.filter]
        have hih := ih h1' (rc + 1) (by omega)
        rw [hres] at hih
        rw [hcnt, hreb, hih]
        omega

/-- Witness for the amended C7: four empty polls without exceptions force
exactly one reconnect. -/
theorem poll_retry_amended_witness :
    RTDS.PollEvent.exn ∉ ([RTDS.PollEvent.noFrame, RTDS.PollEvent.noFrame,
      RTDS.PollEvent.noFrame, RTDS.PollEvent.noFrame] : List RTDS.PollEvent) ∧
    RTDS.countRebuild (RTDS.poll_run 0 [RTDS.PollEvent.noFrame, RTDS.PollEvent.noFrame,
      RTDS.PollEvent.noFrame, RTDS.PollEvent.noFrame]).2 =
      (0 + RTDS.countNoFrame [RTDS.PollEvent.noFrame, RTDS.PollEvent.noFrame,
        RTDS.PollEvent.noFrame, RTDS.PollEvent.noFrame]) / 4 :=
  ⟨by decide,
    (poll_retry_amended 0 [RTDS.PollEvent.noFrame, RTDS.PollEvent.noFrame,
      RTDS.PollEvent.noFrame, RTDS.PollEvent.noFrame] (by decide) (by decide)).1⟩

/-! ## C8 -/

/-- Counterexample to C8 as stated: for an `int` control point the code
renders `"true"` only when `int(value) >= 1`, not when the value is
truthy — the truthy value `-1` renders as `"false"`. -/
theorem serialize_truthy_counterexample :
    RTDS.serialize_value cfgW "A" (PyVal.pint (-1)) = some "false" ∧
    (-1 : Int) ≠ 0 := by
  refine ⟨by decide, by decide⟩

/-- C8 amended: booleans render as lowercase `"true"`/`"false"`; a
non-boolean value of a tag declared as an `int` control point renders as
`"true"` exactly when `int(value) ≥ 1` and `"false"` otherwise (so
negative, truthy values also render `"false"`); every other value renders
via `str`. -/
theorem serialize_value_spec (cfg : Config) (tag : String) (v : PyVal) :
    (∀ b, RTDS.serialize_value cfg tag (PyVal.pbool b) =
      some (if b then "true" else "false")) ∧
    ((∀ b, v ≠ PyVal.pbool b) →
      dictGet (RTDS.gtnet_skt_tags cfg) tag = some "int" →
      RTDS.serialize_value cfg tag v =
        (pyIntOf v).map (fun z => if 1 ≤ z then "true" else "false")) ∧
    ((∀ b, v ≠ PyVal.pbool b) →
      dictGet (RTDS.gtnet_skt_tags cfg) tag ≠ some "int" →
      RTDS.serialize_value cfg tag v = some (pyStr v)) := by
  refine ⟨?_, ?_, ?_⟩
  · intro b; cases b <;> rfl
  · intro hnb hint
    cases v with
    | pbool b => exact absurd rfl (hnb b)
    | pint z => simp [RTDS.serialize_value, hint]
    | pfloat q => simp [RTDS.serialize_value, hint]
    | pstr s => simp [RTDS.serialize_value, hint]
  · intro hnb hnint
    cases v with
    | pbool b => exact absurd rfl (hnb b)
    | pint z => simp [RTDS.serialize_value, hnint]
    | pfloat q => simp [RTDS.serialize_value, hnint]
    | pstr s => simp [RTDS.serialize_value, hnint]

/-- Witness for the amended C8: the declared `int` point `"A"` with the
stored value 0 renders by the `int(value) ≥ 1` rule. -/
theorem serialize_value_spec_witness :
    dictGet (RTDS.gtnet_skt_tags cfgW) "A" = some "int" ∧
    RTDS.serialize_value cfgW "A" (PyVal.pint 0) =
      (pyIntOf (PyVal.pint 0)).map (fun z => if 1 ≤ z then "true" else "false") :=
  ⟨by decide,
    (serialize_value_spec cfgW "A" (PyVal.pint 0)).2.1 (by decide) (by decide)⟩

/-! ## C9 -/

theorem map_fst_zip_eq_take {α β : Type} :
    ∀ (a : List α) (b : List β), (a.zip b).map Prod.fst = a.take b.length := by
  intro a
  induction a with
  | nil => intro b; simp
  | cons x a ih =>
    intro b
    cases b with
    | nil => simp
    | cons y b => simp [List.zip_cons_cons, ih]

/-- In a dict with distinct keys, each entry is what lookup finds. -/
theorem dictGet_of_mem_nodup {β : Type} :
    ∀ (d : List (String × β)), (dictKeys d).Nodup →
      ∀ nv ∈ d, dictGet d nv.1 = some nv.2 := by
  intro d
  induction d with
  | nil => intro _ nv h; exact absurd h (List.not_mem_nil _)
  | cons p rest ih =>
    intro hnd nv hmem
    obtain ⟨k1, v1⟩ := p
    simp only [dictKeys_cons, List.nodup_cons] at hnd
    rcases List.mem_cons.mp hmem with h1 | h2
    · subst h1
      simp [dictGet_cons]
    · have hne : nv.1 ≠ k1 := by
        intro hh
        exact hnd.1 (hh ▸ List.mem_map.mpr ⟨nv, h2, rfl⟩)
      rw [dictGet_cons, if_neg hne]
      exact ih hnd.2 nv h2

/-- Invariant of the seeding loop: starting from a dict whose keys are
disjoint from the (distinct) zip keys, a successful run appends exactly
one entry per triple, holding the parsed initial value. -/
theorem initLoop_inv :
    ∀ (l : List (String × String × String)) (g0 g : List (String × GVal)),
      RTDS.initLoop g0 l = some g →
      (∀ kv ∈ l, kv.1 ∉ dictKeys g0) →
      (l.map Prod.fst).Nodup →
      dictKeys g = dictKeys g0 ++ l.map Prod.fst ∧
      (∀ k ∈ dictKeys g0, dictGet g k = dictGet g0 k) ∧
      (∀ x ∈ l, ∃ gv, RTDS.initParse x.2.1 x.2.2 = some gv ∧
        dictGet g x.1 = some gv) := by
  intro l
  induction l with
  | nil =>
    intro g0 g h _ _
    obtain rfl : g0 = g := Option.some.inj h
    refine ⟨by simp, fun k _ => rfl, fun x hx => absurd hx (List.not_mem_nil _)⟩
  | cons x rest ih =>
    intro g0 g h hfresh hnd
    obtain ⟨n, t, v0⟩ := x
    cases hp : RTDS.initParse t v0 with
    | none =>
      rw [show RTDS.initLoop g0 ((n, t, v0) :: rest) = none from by
        simp [RTDS.initLoop, hp]] at h
      cases h
    | some gv =>
      rw [show RTDS.initLoop g0 ((n, t, v0) :: rest) =
          RTDS.initLoop (dictSet g0 n gv) rest from by
        simp [RTDS.initLoop, hp]] at h
      have hn0 : n ∉ dictKeys g0 := hfresh (n, t, v0) (List.mem_cons_self _ _)
      have hset : dictSet g0 n gv = g0 ++ [(n, gv)] := dictSet_of_not_mem gv hn0
      have hsetkeys : dictKeys (dictSet g0 n gv) = dictKeys g0 ++ [n] := by
        rw [hset]
        unfold dictKeys
        rw [List.map_append]
        rfl
      simp only [List.map_cons, List.nodup_cons] at hnd
      have hfresh' : ∀ kv ∈ rest, kv.1 ∉ dictKeys (dictSet g0 n gv) := by
        intro kv hkv
        rw [hsetkeys]
        simp only [List.mem_append, List.mem_singleton]
        push_neg
        exact ⟨hfresh kv (List.mem_cons_of_mem _ hkv),
          fun hh => hnd.1 (hh ▸ List.mem_map.mpr ⟨kv, hkv, rfl⟩)⟩
      obtain ⟨hkeys, hpres, hlook⟩ := ih (dictSet g0 n gv) g h hfresh' hnd.2
      refine ⟨?_, ?_, ?_⟩
      · rw [hkeys, hsetkeys, List.append_assoc]
        rfl
      · intro k hk
        have hk' : k ∈ dictKeys (dictSet g0 n gv) := by
          rw [hsetkeys]
          exact List.mem_append_left _ hk
        rw [hpres k hk']
        have hkn : k ≠ n := fun hh => hn0 (hh ▸ hk)
        exact dictGet_dictSet_ne g0 n k gv hkn
      · intro x hx
        rcases List.mem_cons.mp hx with h1 | h2
        · subst h1
          refine ⟨gv, hp, ?_⟩
          have hnk : n ∈ dictKeys (dictSet g0 n gv) := by
            rw [hsetkeys]
            exact List.mem_append_right _ (List.mem_singleton.mpr rfl)
          rw [hpres n hnk]
          exact dictGet_dictSet_self g0 n gv
        · exact hlook x h2

/-- C9: immediately after initialization completes, the tag store
`current_values` is exactly the seeded control point vector (so it
already contains every declared control point mapped to its parsed
configured initial value); therefore, whenever at least one control
point is declared, `query` does not return the "no data yet" error and
`read` of a declared control point does not return the "not
initialized" error, even before any measurement frame has arrived. -/
theorem init_seeds_store (cfg : Config) (st : RTDSState)
    (hnd : cfg.gtnet_skt_tag_names.Nodup)
    (h : RTDS.init cfg = some st) :
    st.current_values = st.gtnet_skt_state.map (fun p => (p.1, gvalToPy p.2)) ∧
    (∀ x ∈ cfg.gtnet_skt_tag_names.zip
        (cfg.gtnet_skt_tag_types.zip cfg.gtnet_skt_initial_values),
      ∃ gv, RTDS.initParse x.2.1 x.2.2 = some gv ∧
        dictGet st.current_values x.1 = some (gvalToPy gv)) ∧
    (cfg.gtnet_skt_tag_types ≠ [] →
      RTDS.query st.current_values ≠
        "ERR=No data points have been read yet from the RTDS" ∧
      ∀ t ∈ cfg.gtnet_skt_tag_names,
        RTDS.read cfg st.current_values t ≠
          some "ERR=Data points have not been initialized yet from the RTDS") := by
  by_cases hv : RTDS.validGtnetConfig cfg = true
  · cases hloop : RTDS.initLoop [] (cfg.gtnet_skt_tag_names.zip
        (cfg.gtnet_skt_tag_types.zip cfg.gtnet_skt_initial_values)) with
    | none =>
      rw [show RTDS.init cfg = none from by simp [RTDS.init, hv, hloop]] at h
      cases h
    | some g =>
      have hinit : RTDS.init cfg = some
          { gtnet_skt_state := g
            current_values := dictUpdate [] (g.map (fun p => (p.1, gvalToPy p.2))) } := by
        simp [RTDS.init, hv, hloop]
      rw [hinit] at h
      obtain rfl : ({ gtnet_skt_state := g
                      current_values := dictUpdate []
                        (g.map (fun p => (p.1, gvalToPy p.2))) } : RTDSState) = st :=
        Option.some.inj h
      have hlfst : (cfg.gtnet_skt_tag_names.zip
          (cfg.gtnet_skt_tag_types.zip cfg.gtnet_skt_initial_values)).map Prod.fst =
          cfg.gtnet_skt_tag_names.take
            (cfg.gtnet_skt_tag_types.zip cfg.gtnet_skt_initial_values).length :=
        map_fst_zip_eq_take _ _
      have hlnd : ((cfg.gtnet_skt_tag_names.zip
          (cfg.gtnet_skt_tag_types.zip cfg.gtnet_skt_initial_values)).map Prod.fst).Nodup := by
        rw [hlfst]
        exact hnd.sublist (List.take_sublist _ _)
      obtain ⟨hkeys, _, hlook⟩ := initLoop_inv _ [] g hloop (by intro kv _; simp) hlnd
      rw [dictKeys_nil, List.nil_append] at hkeys
      have hgnd : (dictKeys g).Nodup := by rw [hkeys]; exact hlnd
      have hmapkeys : dictKeys (g.map (fun p => (p.1, gvalToPy p.2))) = dictKeys g := by
        unfold dictKeys
        rw [List.map_map]
        rfl
      have hcv : dictUpdate [] (g.map (fun p => (p.1, gvalToPy p.2))) =
          g.map (fun p => (p.1, gvalToPy p.2)) := by
        apply dictUpdate_nil_of_nodup
        have : (g.map (fun p => (p.1, gvalToPy p.2))).map Prod.fst =
            dictKeys (g.map (fun p => (p.1, gvalToPy p.2))) := rfl
        rw [this, hmapkeys]
        exact hgnd
      refine ⟨hcv, ?_, ?_⟩
      · intro x hx
        obtain ⟨gv, hp, hg⟩ := hlook x hx
        refine ⟨gv, hp, ?_⟩
        show dictGet (dictUpdate [] (g.map (fun p => (p.1, gvalToPy p.2)))) x.1 = _
        rw [hcv, dictGet_map_value, hg]
        rfl
      · intro htypes
        -- lengths from the validated configuration
        have hv2 := hv
        unfold RTDS.validGtnetConfig at hv2
        have hEmpty : cfg.gtnet_skt_tag_types.isEmpty = false := by
          cases htt : cfg.gtnet_skt_tag_types with
          | nil => exact absurd htt htypes
          | cons a l => rfl
        rw [hEmpty] at hv2
        simp only [Bool.false_or, Bool.and_eq_true, beq_iff_eq,
          decide_eq_true_eq, List.all_eq_true] at hv2
        obtain ⟨⟨⟨hlen1, hlen2⟩, _⟩, _⟩ := hv2
        have hzlen : (cfg.gtnet_skt_tag_types.zip cfg.gtnet_skt_initial_values).length =
            cfg.gtnet_skt_tag_types.length := by
          rw [List.length_zip, hlen2]
          exact Nat.min_self _
        have hkeysnames : dictKeys g = cfg.gtnet_skt_tag_names := by
          rw [hkeys, hlfst, hzlen, ← hlen1, List.take_length]
        have hnames : cfg.gtnet_skt_tag_names ≠ [] := by
          intro hh
          apply htypes
          have := hlen1
          rw [hh] at this
          cases htt : cfg.gtnet_skt_tag_types with
          | nil => rfl
          | cons a l => rw [htt] at this; simp at this
        have hgne : g ≠ [] := by
          intro hh
          rw [hh] at hkeysnames
          exact hnames hkeysnames.symm
        have hcvne : (dictUpdate [] (g.map (fun p => (p.1, gvalToPy p.2)))).isEmpty
            = false := by
          rw [hcv]
          cases hgg : g with
          | nil => exact absurd hgg hgne
          | cons a l => rfl
        constructor
        · show RTDS.query (dictUpdate [] (g.map (fun p => (p.1, gvalToPy p.2)))) ≠ _
          unfold RTDS.query
          rw [hcvne]
          simp only [Bool.false_eq_true, if_false]
          exact ack_ne_err _ "No data points have been read yet from the RTDS"
        · intro t ht
          show RTDS.read cfg (dictUpdate [] (g.map (fun p => (p.1, gvalToPy p.2)))) t ≠ _
          rw [hcv] at hcvne ⊢
          have htmem : t ∈ dictKeys (g.map (fun p => (p.1, gvalToPy p.2))) := by
            rw [hmapkeys, hkeysnames]
            exact ht
          have hsome := (dictGet_isSome_iff_mem _ t).mpr htmem
          cases hvt : dictGet (g.map (fun p => (p.1, gvalToPy p.2))) t with
          | none => rw [hvt] at hsome; cases hsome
          | some v =>
            have hread : RTDS.read cfg (g.map (fun p => (p.1, gvalToPy p.2))) t =
                (RTDS.serialize_value cfg t v).map (fun s => "ACK=" ++ s) := by
              unfold RTDS.read
              rw [hcvne]
              simp only [Bool.false_eq_true, if_false]
              rw [hvt]
            rw [hread]
            cases hs : RTDS.serialize_value cfg t v with
            | none => simp
            | some s =>
              intro heq
              have heq2 : ("ACK=" ++ s) =
                  "ERR=Data points have not been initialized yet from the RTDS" :=
                Option.some.inj heq
              exact ack_ne_err s
                "Data points have not been initialized yet from the RTDS" heq2
  · rw [show RTDS.init cfg = none from by simp [RTDS.init, hv]] at h
    cases h

/-- Witness for C9 at the two-point configuration: the store built by
`init` is the seeded control point vector. -/
theorem init_seeds_store_witness :
    RTDS.init cfgW = some stW ∧
    stW.current_values = stW.gtnet_skt_state.map (fun p => (p.1, gvalToPy p.2)) :=
  ⟨by decide, (init_seeds_store cfgW stW (by decide) (by decide)).1⟩
